import Mathlib

/-!
Verification of the GossipBot TCP broadcast relay (src/index.js).

The development shallowly embeds the relay core: the connection registry
(the `listeners` object keyed by `socket.nickname`), the `broadcast`
fan-out, the server-lifecycle state machine driven by the `close-server`
and `open-server` handlers, and the authenticated command gateway.
Pure string manipulation is embedded as Lean functions; the event-driven
socket callbacks are embedded as a step function on an explicit state,
with asynchronous callbacks (socket `close` events, the `netServer.close`
and `netServer.listen` completion callbacks) modelled as events of their
own delivered by the single-threaded event loop.
-/

namespace GossipBot

/-- Per-connection delivery state: in the source `socket.status` is the
string `"running"` or `"paused"` (index.js lines 124, 137, 142). -/
inductive ConnStatus where
  | running
  | paused
deriving DecidableEq, Repr

/-- Render a `ConnStatus` the way the source stores it. -/
def ConnStatus.str : ConnStatus → String
  | .running => "running"
  | .paused => "paused"

/-- One registered connection: `socket.nickname` and `socket.status`
(index.js lines 123-124). The transport handle itself carries no further
state the relay reads. -/
structure Conn where
  nickname : String
  status : ConnStatus
deriving DecidableEq, Repr

/-- JavaScript `s.split("\n")` on the character list of `s`: split at every
newline character, keeping empty fragments, so a string with k newlines
yields k+1 fragments (`"".split("\n")` is `[""]`). -/
def splitNl : List Char → List (List Char)
  | [] => [[]]
  | c :: cs =>
    if c = '\n' then [] :: splitNl cs
    else
      match splitNl cs with
      | [] => [[c]]
      | l :: ls => (c :: l) :: ls

theorem splitNl_ne_nil (l : List Char) : splitNl l ≠ [] := by
  cases l with
  | nil => simp [splitNl]
  | cons c cs =>
    simp only [splitNl]
    split
    · simp
    · split <;> simp

theorem splitNl_length (l : List Char) :
    (splitNl l).length = l.count '\n' + 1 := by
  induction l with
  | nil => simp [splitNl]
  | cons c cs ih =>
    by_cases h : c = '\n'
    · simp [splitNl, h, List.count_cons, ih]
    · rcases h' : splitNl cs with _ | ⟨l0, ls⟩
      · exact absurd h' (splitNl_ne_nil cs)
      · have hlen : (splitNl cs).length = cs.count '\n' + 1 := ih
        rw [h'] at hlen
        simp [splitNl, h, h', List.count_cons, ← hlen]

/-- `message.split("\n")` on Lean strings. -/
def jsSplitNl (s : String) : List String :=
  (splitNl s.data).map (fun l => ⟨l⟩)

theorem jsSplitNl_length (s : String) :
    (jsSplitNl s).length = s.data.count '\n' + 1 := by
  simp [jsSplitNl, splitNl_length]

/-- A broadcast payload is either a raw string or a structured
`{channel, user, text}` object (the two `typeof` branches of `broadcast`,
index.js lines 160-166). -/
inductive Payload where
  | raw (s : String)
  | structured (channel user text : String)
deriving DecidableEq, Repr

/-- The line decomposition at the top of `broadcast` (index.js 159-166):
a raw string is split on newlines; a structured payload has its `text`
split on newlines and each line serialized as
`channel ++ "," ++ user ++ "," ++ line`, with no escaping. -/
def decompose : Payload → List String
  | .raw s => jsSplitNl s
  | .structured channel user text =>
      (jsSplitNl text).map (fun line => channel ++ "," ++ user ++ "," ++ line)

/-- The write fan-out of `broadcast` (index.js 168-174): iterate over the
registered connections in key order; for each connection whose status is
`"running"`, write every decomposed line followed by `'\n'`, in order.
The result is the sequential trace of (nickname, written string) pairs. -/
def broadcastTrace (ls : List Conn) (p : Payload) : List (String × String) :=
  match ls with
  | [] => []
  | c :: rest =>
      (if c.status = .running then
        (decompose p).map (fun line => (c.nickname, line ++ "\n"))
      else []) ++ broadcastTrace rest p

/-- The strings written to the connection named `id` during one broadcast,
in order. -/
def writesFor (ls : List Conn) (p : Payload) (id : String) : List String :=
  ((broadcastTrace ls p).filter (fun pr => pr.1 == id)).map Prod.snd

theorem broadcastTrace_fst_mem (ls : List Conn) (p : Payload) :
    ∀ pr ∈ broadcastTrace ls p, pr.1 ∈ ls.map Conn.nickname := by
  induction ls with
  | nil => intro pr hpr; simp [broadcastTrace] at hpr
  | cons c rest ih =>
    intro pr hpr
    simp only [broadcastTrace, List.mem_append] at hpr
    rcases hpr with hpr | hpr
    · split at hpr
      · simp only [List.mem_map] at hpr
        obtain ⟨line, _, rfl⟩ := hpr
        simp
      · simp at hpr
    · simp [ih pr hpr]

theorem filter_block_self (nick : String) (L : List String) :
    (((L.map (fun line => (nick, line ++ "\n"))).filter
        (fun pr => pr.1 == nick)).map Prod.snd)
      = L.map (fun line => line ++ "\n") := by
  induction L with
  | nil => simp
  | cons l rest ih => simp [ih]

theorem filter_block_ne (nick id : String) (h : ¬nick = id) (L : List String) :
    ((L.map (fun line => (nick, line ++ "\n"))).filter (fun pr => pr.1 == id)) = [] := by
  induction L with
  | nil => simp
  | cons l rest ih => simp [ih, h]

theorem filter_trace_not_mem (ls : List Conn) (p : Payload) (id : String)
    (h : id ∉ ls.map Conn.nickname) :
    (broadcastTrace ls p).filter (fun pr => pr.1 == id) = [] := by
  rw [List.filter_eq_nil_iff]
  intro pr hpr
  have := broadcastTrace_fst_mem ls p pr hpr
  simp only [beq_iff_eq]
  intro hid
  exact h (hid ▸ this)

/-- Core delivery lemma: with distinct nicknames, a broadcast writes to a
registered connection exactly the decomposed lines, newline-terminated and
in order, when it is running, and nothing when it is paused. -/
theorem writesFor_eq (p : Payload) :
    ∀ ls : List Conn, (ls.map Conn.nickname).Nodup → ∀ c ∈ ls,
      writesFor ls p c.nickname =
        if c.status = .running then (decompose p).map (fun line => line ++ "\n")
        else [] := by
  intro ls
  induction ls with
  | nil => intro _ c hc; simp at hc
  | cons c0 rest ih =>
    intro hnd c hc
    have hnd' : (rest.map Conn.nickname).Nodup := (List.nodup_cons.mp hnd).2
    have h0 : c0.nickname ∉ rest.map Conn.nickname := (List.nodup_cons.mp hnd).1
    rcases List.mem_cons.mp hc with rfl | hc'
    · unfold writesFor broadcastTrace
      rw [List.filter_append, List.map_append,
        filter_trace_not_mem rest p c.nickname h0]
      split
      · rw [filter_block_self]; simp
      · simp
    · have hne : ¬c0.nickname = c.nickname := by
        intro heq
        exact h0 (heq ▸ List.mem_map_of_mem Conn.nickname hc')
      unfold writesFor broadcastTrace
      rw [List.filter_append, List.map_append]
      have hblock :
          ((if c0.status = .running then
              (decompose p).map (fun line => (c0.nickname, line ++ "\n"))
            else []).filter (fun pr => pr.1 == c.nickname)) = [] := by
        split
        · exact filter_block_ne c0.nickname c.nickname hne (decompose p)
        · simp
      rw [hblock]
      simpa [writesFor] using ih hnd' c hc'

/-- Remove the connection named `id` from the registry
(`delete listeners[clientName]`, index.js 148; nicknames are unique, so a
filter is equivalent to the single-key delete). -/
def removeConn (ls : List Conn) (id : String) : List Conn :=
  ls.filter (fun c => c.nickname != id)

/-- Set the status of the connection named `id`, a no-op when absent
(the socket `pause`/`resume` handlers, index.js 136-144). -/
def setConnStatus (ls : List Conn) (id : String) (st : ConnStatus) : List Conn :=
  ls.map (fun c => if c.nickname == id then { c with status := st } else c)

/-- Effect of `pause-all` on the registry (index.js 341-345): every
running connection is paused, paused ones are left as they are. -/
def pausedConns (ls : List Conn) : List Conn :=
  ls.map (fun c => if c.status = .running then { c with status := .paused } else c)

/-- Effect of `resume-all` on the registry (index.js 360-365). -/
def resumedConns (ls : List Conn) : List Conn :=
  ls.map (fun c => if c.status = .paused then { c with status := .running } else c)

/-- Process-wide relay state: the `listeners` registry in key order, the
`listenerID` counter, `netServer.status` (a plain string in the source,
kept as such so the `weird state` fallback is representable),
`netServer.port`, and two flags recording that `netServer.close` resp.
`netServer.listen` has been called but its completion callback has not yet
fired. -/
structure St where
  listeners : List Conn
  nextId : Nat
  status : String
  port : String
  closeRequested : Bool
  listenRequested : Bool
deriving DecidableEq, Repr

/-- State right after startup: `netServer.listen`'s callback has fired
(index.js 151-154). -/
def initSt (port : String) : St :=
  { listeners := [], nextId := 0, status := "listening", port := port,
    closeRequested := false, listenRequested := false }

/-- Events processed by the single-threaded event loop: socket callbacks,
the administrative commands, the broadcast of an ambient message, and the
two asynchronous server callbacks. -/
inductive Ev where
  | accept
  | sockError (id : String)
  | sockClose (id : String)
  | sockPause (id : String)
  | sockResume (id : String)
  | broadcastEv (p : Payload)
  | statusCmd
  | endAllCmd
  | pauseAllCmd
  | resumeAllCmd
  | closeServerCmd
  | openServerCmd
  | shutdownDone
  | listenDone
deriving DecidableEq, Repr

/-- The `status` command's reply text (index.js 283-290). -/
def statusReply (s : St) : String :=
  "Listener Port: " ++ s.port
    ++ "\nServer Status: " ++ s.status
    ++ "\nCurrent Connections: " ++ toString s.listeners.length
    ++ String.join (s.listeners.map (fun c => "\n\t" ++ c.nickname ++ " is " ++ c.status.str))

/-- One step of the event loop: the next state together with the text the
handler emits (operator replies for commands, console log lines for socket
events; the red colouring of the abrupt-disconnect log is dropped, only
the text is kept). Faithful points: `socket.end()` in `end-all` does not
remove a connection synchronously, its later `close` event does; the
socket `error` handler only logs, removal again happens in the `close`
handler that follows; `netServer.close` is called in the listening branch
of `close-server` whether or not connections remain, and its callback
(`shutdownDone`) fires once no connection remains; new connections are
only accepted while listening and no close has been requested. -/
def stepR (s : St) : Ev → St × List String
  | .accept =>
      if s.status = "listening" ∧ s.closeRequested = false then
        ({ s with
            listeners := s.listeners ++ [⟨"net#" ++ toString s.nextId, .running⟩],
            nextId := s.nextId + 1 },
         ["net#" ++ toString s.nextId ++ " has joined"])
      else (s, [])
  | .sockError id => (s, [id ++ " has disconnected abruptly"])
  | .sockClose id =>
      ({ s with listeners := removeConn s.listeners id },
       [id ++ " has disconnected gracefully"])
  | .sockPause id =>
      ({ s with listeners := setConnStatus s.listeners id .paused }, [id ++ " is paused"])
  | .sockResume id =>
      ({ s with listeners := setConnStatus s.listeners id .running }, [id ++ " is running"])
  | .broadcastEv p => (s, decompose p)
  | .statusCmd => (s, [statusReply s])
  | .endAllCmd => (s, ["Clients Terminated: " ++ toString s.listeners.length])
  | .pauseAllCmd =>
      ({ s with listeners := pausedConns s.listeners },
       ["Clients Paused: " ++ toString s.listeners.length])
  | .resumeAllCmd =>
      ({ s with listeners := resumedConns s.listeners },
       ["Clients Resumed: "
         ++ toString (s.listeners.filter (fun c => c.status == ConnStatus.paused)).length])
  | .closeServerCmd =>
      if s.status = "listening" then
        if 0 < s.listeners.length then
          ({ s with status := "closing", closeRequested := true },
           ["Attempting to Close Server",
            "Server will remain open until all listeners disconnect",
            "Hint: telling me to 'end-all' should end it now"])
        else ({ s with closeRequested := true }, [])
      else if s.status = "closed" then (s, ["Can't close a closed Server"])
      else if s.status = "closing" then
        (s, ["Server is already closing.  It will close after all listeners disconnect.",
             "Hint: you can tell me to 'end-all' to close all the listeners"])
      else (s, ["Server in a weird state: " ++ s.status])
  | .openServerCmd =>
      if s.status = "closed" then ({ s with listenRequested := true }, [])
      else if s.status = "listening" then (s, ["Can't open an open Server"])
      else if s.status = "closing" then
        (s, ["Server is currently closing.  It will close after all listeners disconnect.",
             "Hint: you can tell me to 'end-all' to close all the listeners and then 'open-server' to open properly"])
      else (s, ["Server in a weird state: " ++ s.status])
  | .shutdownDone =>
      if s.closeRequested = true ∧ s.listeners = [] then
        ({ s with status := "closed", closeRequested := false },
         ["Server Successfully closed"])
      else (s, [])
  | .listenDone =>
      if s.listenRequested = true then
        ({ s with status := "listening", listenRequested := false },
         ["Server Successfully opened"])
      else (s, [])

/-- The state component of one event-loop step. -/
def step (s : St) (e : Ev) : St := (stepR s e).1

/-- Run the event loop over a sequence of events. -/
def run (s : St) (es : List Ev) : St := es.foldl step s

/-- The gateway's commands (`controller.commands`, index.js 195-228). -/
inductive Cmd where
  | authenticate
  | options
  | status
  | endAll
  | pauseAll
  | resumeAll
  | closeServer
  | openServer
deriving DecidableEq, Repr

/-- Each command's single trigger word (the one-element `commandList`). -/
def commandName : Cmd → String
  | .authenticate => "authenticate"
  | .options => "options"
  | .status => "status"
  | .endAll => "end-all"
  | .pauseAll => "pause-all"
  | .resumeAll => "resume-all"
  | .closeServer => "close-server"
  | .openServer => "open-server"

/-- Each command's description string, verbatim (including the source's
spelling of `availale`). -/
def commandDescription : Cmd → String
  | .authenticate => "Authenticate into the system"
  | .options => "Get a list of all availale commands"
  | .status => "Get Status of external connections"
  | .endAll => "End all of the current connections"
  | .pauseAll => "Pause all connections"
  | .resumeAll => "Resume all of the currently paused connections"
  | .closeServer => "Close the server"
  | .openServer => "Open the server"

/-- `Object.keys(controller.commands)` in declaration order. -/
def allCommands : List Cmd :=
  [.authenticate, .options, .status, .endAll, .pauseAll, .resumeAll,
   .closeServer, .openServer]

/-- `controller.isAuthenticated` (index.js 182-184): membership of the
caller's user id in `controller.authenticatedUsers`. -/
def isAuthenticated (users : List String) (u : String) : Bool :=
  users.contains u

/-- The fixed refusal of `controller.authenticatedTask` (index.js 190). -/
def notAuthReply : String :=
  "You'll need to be authenticated first. type 'authenticate' to continue"

/-- `controller.authenticatedTask` (index.js 186-192): run the wrapped
handler when the caller is authenticated, otherwise reply with the fixed
refusal and leave the state alone. -/
def authenticatedTask (users : List String) (u : String) (s : St) (ev : Ev) :
    St × List String :=
  if isAuthenticated users u then stepR s ev else (s, [notAuthReply])

/-- The `options` reply (index.js 295-314): authenticated callers see
every command, others only `options` and `authenticate`. -/
def optionsReply (authed : Bool) : String :=
  let cmds : List Cmd := if authed then allCommands else [.options, .authenticate]
  "Command List:"
    ++ String.join (cmds.map (fun c => "\n\t" ++ commandName c ++ " : " ++ commandDescription c))

/-- The event an authenticated gated command dispatches to; `authenticate`
and `options` are not gated and never reach this table through `handle`. -/
def gatedEvent : Cmd → Ev
  | .status => .statusCmd
  | .endAll => .endAllCmd
  | .pauseAll => .pauseAllCmd
  | .resumeAll => .resumeAllCmd
  | .closeServer => .closeServerCmd
  | .openServer => .openServerCmd
  | .authenticate => .statusCmd
  | .options => .statusCmd

/-- The command gateway: one inbound command from user `u` against
registry/server state `s`. The six administrative commands are wrapped in
`authenticatedTask`; `options` is not (index.js 295-314) and `authenticate`
has its own check (index.js 235-276), modelled here only up to the opening
line of its password conversation. -/
def handle (users : List String) (u : String) (s : St) : Cmd → St × List String
  | .authenticate =>
      if isAuthenticated users u then (s, ["You're already authenticated!"])
      else (s, ["What's the password?"])
  | .options => (s, [optionsReply (isAuthenticated users u)])
  | .status => authenticatedTask users u s .statusCmd
  | .endAll => authenticatedTask users u s .endAllCmd
  | .pauseAll => authenticatedTask users u s .pauseAllCmd
  | .resumeAll => authenticatedTask users u s .resumeAllCmd
  | .closeServer => authenticatedTask users u s .closeServerCmd
  | .openServer => authenticatedTask users u s .openServerCmd

/-- A two-connection registry used to instantiate theorems: `net#0` is
running, `net#1` is paused. -/
def demoConns : List Conn := [⟨"net#0", .running⟩, ⟨"net#1", .paused⟩]

/-- A listening server state holding `demoConns`. -/
def demoSt : St :=
  { listeners := demoConns, nextId := 2, status := "listening", port := "4000",
    closeRequested := false, listenRequested := false }

/-- A listening server state with one paused and one running connection. -/
def mixedSt : St :=
  { listeners := [⟨"net#0", .paused⟩, ⟨"net#1", .running⟩], nextId := 2,
    status := "listening", port := "4000",
    closeRequested := false, listenRequested := false }

/-- A server caught mid-close: `close-server` was issued, every connection
has since disconnected, but the shutdown callback has not fired yet. -/
def closingSt : St :=
  { listeners := [], nextId := 0, status := "closing", port := "4000",
    closeRequested := true, listenRequested := false }

/-- C1: broadcasting a payload writes exactly the decomposed lines, each
newline-terminated and in payload order, to every RUNNING connection, and
writes nothing to any PAUSED connection. -/
theorem broadcast_delivers_to_running_only (ls : List Conn) (p : Payload)
    (hnodup : (ls.map Conn.nickname).Nodup) :
    (∀ c ∈ ls, c.status = .running →
        writesFor ls p c.nickname = (decompose p).map (fun line => line ++ "\n"))
    ∧ (∀ c ∈ ls, c.status = .paused → writesFor ls p c.nickname = []) := by
  constructor
  · intro c hc hrun
    rw [writesFor_eq p ls hnodup c hc, if_pos hrun]
  · intro c hc hp
    rw [writesFor_eq p ls hnodup c hc, if_neg (by simp [hp])]

/-- Witness for C1: with `net#0` running and `net#1` paused, broadcasting
the raw string with one newline writes two terminated lines to `net#0` and
nothing to `net#1`. -/
theorem broadcast_delivers_to_running_only_witness :
    writesFor demoConns (.raw "x\ny") "net#0" = ["x\n", "y\n"]
    ∧ writesFor demoConns (.raw "x\ny") "net#1" = [] := by
  have h := broadcast_delivers_to_running_only demoConns (.raw "x\ny") (by decide)
  exact ⟨(h.1 ⟨"net#0", .running⟩ (by decide) rfl).trans (by decide),
         h.2 ⟨"net#1", .paused⟩ (by decide) rfl⟩

/-- C3: a structured payload is decomposed by splitting its text on
newlines, and each line reaching a running connection is exactly
`channel ++ "," ++ user ++ "," ++ line` (comma-joined, no escaping),
in the order of the lines of the text. -/
theorem structured_line_serialization (channel user text : String)
    (ls : List Conn) (hnodup : (ls.map Conn.nickname).Nodup)
    (c : Conn) (hc : c ∈ ls) (hrun : c.status = .running) :
    writesFor ls (.structured channel user text) c.nickname
      = (jsSplitNl text).map
          (fun line => channel ++ "," ++ user ++ "," ++ line ++ "\n") := by
  rw [writesFor_eq _ ls hnodup c hc, if_pos hrun]
  simp only [decompose, List.map_map]
  rfl

/-- Witness for C3: the scenario payload of the spec reaches `net#0` as
the two comma-joined lines. -/
theorem structured_line_serialization_witness :
    writesFor demoConns (.structured "C1" "U1" "hello\nworld") "net#0"
      = ["C1,U1,hello\n", "C1,U1,world\n"] := by
  have h := structured_line_serialization "C1" "U1" "hello\nworld" demoConns
    (by decide) ⟨"net#0", .running⟩ (by decide) rfl
  exact h.trans (by decide)

/-- C10: broadcasting the raw empty string delivers exactly one empty line
(a bare newline) to every running connection and mirrors one empty line to
the log, and a raw blob with k newline characters decomposes into k+1
output lines. -/
theorem raw_blob_line_decomposition (s : String) (ls : List Conn)
    (hnodup : (ls.map Conn.nickname).Nodup) :
    (∀ c ∈ ls, c.status = .running → writesFor ls (.raw "") c.nickname = ["\n"])
    ∧ (∀ st : St, (stepR st (.broadcastEv (.raw ""))).2 = [""])
    ∧ (decompose (.raw s)).length = s.data.count '\n' + 1 := by
  refine ⟨?_, ?_, ?_⟩
  · intro c hc hrun
    rw [writesFor_eq _ ls hnodup c hc, if_pos hrun]
    decide
  · intro st
    simp only [stepR]
    decide
  · simpa [decompose] using jsSplitNl_length s

/-- Witness for C10: evaluated on the demo registry and on a blob with two
newlines. -/
theorem raw_blob_line_decomposition_witness :
    writesFor demoConns (.raw "") "net#0" = ["\n"]
    ∧ (stepR demoSt (.broadcastEv (.raw ""))).2 = [""]
    ∧ (decompose (.raw "a\n\nb")).length = 2 + 1 := by
  have h := raw_blob_line_decomposition "a\n\nb" demoConns (by decide)
  exact ⟨h.1 ⟨"net#0", .running⟩ (by decide) rfl, h.2.1 demoSt,
         h.2.2.trans (by decide)⟩

theorem pausedConns_nickname (ls : List Conn) :
    (pausedConns ls).map Conn.nickname = ls.map Conn.nickname := by
  induction ls with
  | nil => rfl
  | cons c rest ih =>
    simp only [pausedConns, List.map_cons] at ih ⊢
    rw [ih]
    split <;> rfl

theorem pausedConns_paused (ls : List Conn) :
    ∀ c ∈ pausedConns ls, c.status = .paused := by
  intro c hc
  simp only [pausedConns, List.mem_map] at hc
  obtain ⟨c0, _, rfl⟩ := hc
  cases h : c0.status <;> simp [h]

/-- C2 counterexample: in `mixedSt` exactly one connection is RUNNING, so
the claimed affected count is 1, but the `pause-all` handler replies with
the total registry size 2 (`users.length`, index.js 347). -/
theorem pauseAll_affected_count_counterexample :
    ((mixedSt.listeners.filter (fun c => c.status == ConnStatus.running)).length = 1)
    ∧ (stepR mixedSt .pauseAllCmd).2 = ["Clients Paused: 2"]
    ∧ ("Clients Paused: 2" : String) ≠ "Clients Paused: 1" := by decide

/-- C2 amended: `pause-all` pauses every RUNNING connection (leaving every
registered connection PAUSED, nicknames unchanged) and replies with the
total number of registered connections, which equals the affected count
only when every connection was RUNNING. -/
theorem pauseAll_pauses_all_reports_total (s : St) :
    ((step s .pauseAllCmd).listeners.map Conn.nickname = s.listeners.map Conn.nickname)
    ∧ (∀ c ∈ (step s .pauseAllCmd).listeners, c.status = .paused)
    ∧ (stepR s .pauseAllCmd).2 = ["Clients Paused: " ++ toString s.listeners.length] := by
  refine ⟨?_, ?_, rfl⟩
  · simp only [step, stepR]
    exact pausedConns_nickname s.listeners
  · intro c hc
    exact pausedConns_paused s.listeners c hc

/-- Witness for the amended C2, evaluated on `mixedSt`. -/
theorem pauseAll_pauses_all_reports_total_witness :
    (step mixedSt .pauseAllCmd).listeners.map Conn.nickname = ["net#0", "net#1"]
    ∧ (stepR mixedSt .pauseAllCmd).2 = ["Clients Paused: 2"] := by
  have h := pauseAll_pauses_all_reports_total mixedSt
  exact ⟨h.1.trans (by decide), h.2.2.trans (by decide)⟩

/-- C7 counterexample: the first reply of `close-server` in the CLOSING
state carries two spaces after the first sentence, so it differs from the
single-spaced sentence of the claim. -/
theorem closing_reply_counterexample :
    (stepR closingSt .closeServerCmd).2.head? =
      some "Server is already closing.  It will close after all listeners disconnect."
    ∧ (stepR closingSt .closeServerCmd).2.head? ≠
      some "Server is already closing. It will close after all listeners disconnect." := by
  decide

/-- C7 amended: in the CLOSING state, `close-server` and `open-server`
reply with exactly the source strings — identical to the claimed ones
except for a second space after the first sentence — each followed by its
exact hint line. -/
theorem closing_replies_exact (s : St) (h : s.status = "closing") :
    (stepR s .closeServerCmd).2 =
      ["Server is already closing.  It will close after all listeners disconnect.",
       "Hint: you can tell me to 'end-all' to close all the listeners"]
    ∧ (stepR s .openServerCmd).2 =
      ["Server is currently closing.  It will close after all listeners disconnect.",
       "Hint: you can tell me to 'end-all' to close all the listeners and then 'open-server' to open properly"] := by
  constructor <;> simp [stepR, h]

/-- Witness for the amended C7, evaluated at `closingSt`. -/
theorem closing_replies_exact_witness :
    (stepR closingSt .closeServerCmd).2 =
      ["Server is already closing.  It will close after all listeners disconnect.",
       "Hint: you can tell me to 'end-all' to close all the listeners"] :=
  (closing_replies_exact closingSt rfl).1

/-- C9 counterexample: an unauthenticated caller invoking `options` is not
refused; the handler runs and replies with the reduced command list. -/
theorem options_unauthenticated_counterexample :
    handle [] "U1" (initSt "4000") .options
      = (initSt "4000",
         ["Command List:\n\toptions : Get a list of all availale commands\n\tauthenticate : Authenticate into the system"])
    ∧ ("Command List:\n\toptions : Get a list of all availale commands\n\tauthenticate : Authenticate into the system" : String)
      ≠ notAuthReply := by
  decide

/-- C9 amended: every command other than the bootstrap command
`authenticate` and the ungated `options` command is refused with the fixed
not-authenticated reply, leaving the state untouched, when the caller is
not in the authorized-identity list; for authorized callers the underlying
operation runs. `options` itself always runs, showing the reduced list to
unauthenticated callers. -/
theorem auth_gate_amended (users : List String) (u : String) (s : St) (c : Cmd)
    (h1 : c ≠ .authenticate) (h2 : c ≠ .options) :
    (isAuthenticated users u = false → handle users u s c = (s, [notAuthReply]))
    ∧ (isAuthenticated users u = true → handle users u s c = stepR s (gatedEvent c))
    ∧ handle users u s .options = (s, [optionsReply (isAuthenticated users u)]) := by
  refine ⟨?_, ?_, rfl⟩ <;> intro h <;>
    cases c <;> simp_all [handle, authenticatedTask, gatedEvent]

/-- Witness for the amended C9: `status` is refused for an unknown caller
and dispatched for an authorized one. -/
theorem auth_gate_amended_witness :
    handle [] "U1" (initSt "4000") .status = (initSt "4000", [notAuthReply])
    ∧ handle ["U1"] "U1" (initSt "4000") .status = stepR (initSt "4000") .statusCmd := by
  have ha := auth_gate_amended [] "U1" (initSt "4000") .status (by decide) (by decide)
  have hb := auth_gate_amended ["U1"] "U1" (initSt "4000") .status (by decide) (by decide)
  exact ⟨ha.1 rfl, hb.2.1 rfl⟩

/-- C4: a write error on one connection is delivered as the socket `error`
event, which is handled (logged as an abrupt disconnect) without touching
the registry, and the `close` event that follows it unregisters exactly
that connection; the broadcast writes reaching every other connection are
unchanged, because the fan-out loop never aborts on a failing peer. -/
theorem write_error_isolated (s : St) (id : String) (p : Payload)
    (hnodup : (s.listeners.map Conn.nickname).Nodup) :
    (stepR s (.sockError id)).2 = [id ++ " has disconnected abruptly"]
    ∧ step s (.sockError id) = s
    ∧ (run s [.sockError id, .sockClose id]).listeners = removeConn s.listeners id
    ∧ (∀ c ∈ s.listeners, c.nickname ≠ id →
         writesFor (run s [.sockError id, .sockClose id]).listeners p c.nickname
           = writesFor s.listeners p c.nickname) := by
  refine ⟨rfl, rfl, rfl, ?_⟩
  intro c hc hcne
  have hrunls : (run s [.sockError id, .sockClose id]).listeners
      = removeConn s.listeners id := rfl
  rw [hrunls]
  have hsub : List.Sublist ((removeConn s.listeners id).map Conn.nickname)
      (s.listeners.map Conn.nickname) :=
    List.Sublist.map Conn.nickname (List.filter_sublist s.listeners)
  have hnodup' : ((removeConn s.listeners id).map Conn.nickname).Nodup :=
    List.Nodup.sublist hsub hnodup
  have hc' : c ∈ removeConn s.listeners id := by
    simp only [removeConn, List.mem_filter]
    exact ⟨hc, by simpa using hcne⟩
  rw [writesFor_eq p _ hnodup' c hc', writesFor_eq p _ hnodup c hc]

/-- Witness for C4, evaluated on `mixedSt` with `net#0` erroring. -/
theorem write_error_isolated_witness :
    (stepR mixedSt (.sockError "net#0")).2 = ["net#0 has disconnected abruptly"]
    ∧ (run mixedSt [.sockError "net#0", .sockClose "net#0"]).listeners
        = [⟨"net#1", .running⟩]
    ∧ writesFor (run mixedSt [.sockError "net#0", .sockClose "net#0"]).listeners
        (.raw "x") "net#1" = writesFor mixedSt.listeners (.raw "x") "net#1" := by
  have h := write_error_isolated mixedSt "net#0" (.raw "x") (by decide)
  exact ⟨h.1, h.2.2.1.trans (by decide),
         h.2.2.2 ⟨"net#1", .running⟩ (by decide) (by decide)⟩

/-- C5: over every event-loop step, the CLOSING state is entered only from
LISTENING, by a close request while at least one connection is registered,
and a step out of CLOSING into CLOSED can only be the shutdown-completion
callback, never a direct operator command. -/
theorem closing_state_transitions (s : St) (e : Ev) :
    ((step s e).status = "closing" → s.status ≠ "closing" →
       s.status = "listening" ∧ e = .closeServerCmd ∧ s.listeners ≠ [])
    ∧ (s.status = "closing" → (step s e).status = "closed" → e = .shutdownDone) := by
  constructor
  · intro h1 h2
    cases e with
    | accept =>
        simp only [step, stepR] at h1
        split at h1 <;> exact absurd h1 h2
    | sockError id => exact absurd h1 h2
    | sockClose id => exact absurd h1 h2
    | sockPause id => exact absurd h1 h2
    | sockResume id => exact absurd h1 h2
    | broadcastEv p => exact absurd h1 h2
    | statusCmd => exact absurd h1 h2
    | endAllCmd => exact absurd h1 h2
    | pauseAllCmd => exact absurd h1 h2
    | resumeAllCmd => exact absurd h1 h2
    | closeServerCmd =>
        simp only [step, stepR] at h1
        split at h1
        next hlisten =>
          split at h1
          next hlen =>
            refine ⟨hlisten, rfl, fun hnil => ?_⟩
            rw [hnil] at hlen
            simp at hlen
          next => exact absurd h1 h2
        next =>
          split at h1
          next => exact absurd h1 h2
          next => exact absurd h1 h2
    | openServerCmd =>
        simp only [step, stepR] at h1
        split at h1
        next => exact absurd h1 h2
        next =>
          split at h1
          next => exact absurd h1 h2
          next => exact absurd h1 h2
    | shutdownDone =>
        simp only [step, stepR] at h1
        split at h1
        next => exact absurd (show ("closed" : String) = "closing" from h1) (by decide)
        next => exact absurd h1 h2
    | listenDone =>
        simp only [step, stepR] at h1
        split at h1
        next => exact absurd (show ("listening" : String) = "closing" from h1) (by decide)
        next => exact absurd h1 h2
  · intro h1 h2
    cases e with
    | shutdownDone => rfl
    | accept =>
        simp only [step, stepR] at h2
        split at h2
        next hcond =>
          rw [h1] at hcond
          exact absurd hcond.1 (by decide)
        next => exact absurd (h1.symm.trans h2) (by decide)
    | sockError id => exact absurd (h1.symm.trans h2) (by decide)
    | sockClose id => exact absurd (h1.symm.trans h2) (by decide)
    | sockPause id => exact absurd (h1.symm.trans h2) (by decide)
    | sockResume id => exact absurd (h1.symm.trans h2) (by decide)
    | broadcastEv p => exact absurd (h1.symm.trans h2) (by decide)
    | statusCmd => exact absurd (h1.symm.trans h2) (by decide)
    | endAllCmd => exact absurd (h1.symm.trans h2) (by decide)
    | pauseAllCmd => exact absurd (h1.symm.trans h2) (by decide)
    | resumeAllCmd => exact absurd (h1.symm.trans h2) (by decide)
    | closeServerCmd =>
        simp only [step, stepR] at h2
        split at h2
        next hlisten =>
          rw [h1] at hlisten
          exact absurd hlisten (by decide)
        next =>
          split at h2
          next hclosed =>
            rw [h1] at hclosed
            exact absurd hclosed (by decide)
          next => exact absurd (h1.symm.trans h2) (by decide)
    | openServerCmd =>
        simp only [step, stepR] at h2
        split at h2
        next hclosed =>
          rw [h1] at hclosed
          exact absurd hclosed (by decide)
        next =>
          split at h2
          next hlisten =>
            rw [h1] at hlisten
            exact absurd hlisten (by decide)
          next => exact absurd (h1.symm.trans h2) (by decide)
    | listenDone =>
        simp only [step, stepR] at h2
        split at h2
        next => exact absurd (show ("listening" : String) = "closed" from h2) (by decide)
        next => exact absurd (h1.symm.trans h2) (by decide)

/-- Witness for C5: the first conjunct applied at `mixedSt` with a close
request. -/
theorem closing_state_transitions_witness :
    mixedSt.status = "listening" ∧ Ev.closeServerCmd = Ev.closeServerCmd
      ∧ mixedSt.listeners ≠ [] :=
  (closing_state_transitions mixedSt .closeServerCmd).1 (by decide) (by decide)

/-- Invariant holding between a zero-connection close request and its
shutdown callback: the status string still reads listening, no connection
is registered (and, the listener having stopped accepting, none can be),
and the close callback is pending. -/
def readyToClose (s : St) : Prop :=
  s.status = "listening" ∧ s.listeners = [] ∧ s.closeRequested = true
    ∧ s.listenRequested = false

theorem readyToClose_step (s : St) (e : Ev) (h : readyToClose s)
    (hne : e ≠ .shutdownDone) : readyToClose (step s e) := by
  obtain ⟨h1, h2, h3, h4⟩ := h
  cases e <;>
    simp_all [readyToClose, step, stepR, removeConn, setConnStatus,
      pausedConns, resumedConns]

theorem readyToClose_run (s : St) (es : List Ev) (h : readyToClose s)
    (hes : ∀ e ∈ es, e ≠ .shutdownDone) : readyToClose (run s es) := by
  induction es generalizing s with
  | nil => exact h
  | cons e rest ih =>
    exact ih (step s e) (readyToClose_step s e h (hes e (by simp)))
      (fun e' he' => hes e' (by simp [he']))

/-- C6: a close request issued while LISTENING with zero registered
connections never exposes CLOSING — through any further events short of
the shutdown callback the status stays listening — and the shutdown
callback then moves the server straight to CLOSED. -/
theorem close_with_no_connections (s : St) (h1 : s.status = "listening")
    (h2 : s.listeners = []) (h3 : s.listenRequested = false) (es : List Ev)
    (hes : ∀ e ∈ es, e ≠ .shutdownDone) :
    (run (step s .closeServerCmd) es).status = "listening"
    ∧ (run (step s .closeServerCmd) es).status ≠ "closing"
    ∧ (step (run (step s .closeServerCmd) es) .shutdownDone).status = "closed" := by
  have h0 : readyToClose (step s .closeServerCmd) := by
    simp [readyToClose, step, stepR, h1, h2, h3]
  have hr := readyToClose_run _ es h0 hes
  revert hr
  generalize run (step s Ev.closeServerCmd) es = t
  intro hr
  obtain ⟨hs1, hs2, hs3, hs4⟩ := hr
  refine ⟨hs1, by rw [hs1]; decide, ?_⟩
  simp only [step, stepR]
  rw [if_pos ⟨hs3, hs2⟩]

/-- Witness for C6: a fresh empty server, closed and then queried and
probed by an accept attempt before the callback fires. -/
theorem close_with_no_connections_witness :
    (run (step (initSt "4000") .closeServerCmd) [.statusCmd, .accept]).status
        = "listening"
    ∧ (step (run (step (initSt "4000") .closeServerCmd) [.statusCmd, .accept])
          .shutdownDone).status = "closed" := by
  have h := close_with_no_connections (initSt "4000") rfl rfl rfl
    [.statusCmd, .accept] (by decide)
  exact ⟨h.1, h.2.2⟩

theorem run_sockCloses (st : St) (ids : List String) :
    (run st (ids.map Ev.sockClose)).listeners = ids.foldl removeConn st.listeners := by
  induction ids generalizing st with
  | nil => rfl
  | cons id rest ih => exact ih (step st (.sockClose id))

theorem foldl_removeConn_all :
    ∀ (ids : List String) (ls : List Conn), (∀ c ∈ ls, c.nickname ∈ ids) →
      ids.foldl removeConn ls = [] := by
  intro ids
  induction ids with
  | nil =>
    intro ls h
    cases ls with
    | nil => rfl
    | cons c rest => exact absurd (h c (by simp)) (by simp)
  | cons id rest ih =>
    intro ls h
    simp only [List.foldl_cons]
    apply ih
    intro c hc
    simp only [removeConn, List.mem_filter, bne_iff_ne, ne_eq] at hc
    have := h c hc.1
    simp only [List.mem_cons] at this
    exact this.resolve_left hc.2

/-- C8: the first `end-all` reports the current registry size and ends
every connection; once the close events those ends trigger have been
delivered — with no new connection accepted in between — a second
`end-all` finds an empty registry and reports zero terminated. -/
theorem endAll_twice (s : St) :
    (stepR s .endAllCmd).2 = ["Clients Terminated: " ++ toString s.listeners.length]
    ∧ (stepR (run (step s .endAllCmd)
          ((step s .endAllCmd).listeners.map (fun c => Ev.sockClose c.nickname)))
        .endAllCmd).2 = ["Clients Terminated: 0"] := by
  refine ⟨rfl, ?_⟩
  have hstep : step s .endAllCmd = s := rfl
  rw [hstep]
  have hmap : s.listeners.map (fun c => Ev.sockClose c.nickname)
      = (s.listeners.map Conn.nickname).map Ev.sockClose := by
    rw [List.map_map]
    rfl
  rw [hmap]
  have hempty : (run s ((s.listeners.map Conn.nickname).map Ev.sockClose)).listeners
      = [] := by
    rw [run_sockCloses]
    exact foldl_removeConn_all _ _ (fun c hc => List.mem_map_of_mem Conn.nickname hc)
  simp only [stepR]
  rw [hempty]
  decide

/-- Witness for C8, evaluated on the two-connection state `mixedSt`. -/
theorem endAll_twice_witness :
    (stepR mixedSt .endAllCmd).2 = ["Clients Terminated: 2"]
    ∧ (stepR (run (step mixedSt .endAllCmd)
          ((step mixedSt .endAllCmd).listeners.map (fun c => Ev.sockClose c.nickname)))
        .endAllCmd).2 = ["Clients Terminated: 0"] := by
  have h := endAll_twice mixedSt
  exact ⟨h.1.trans (by decide), h.2⟩

end GossipBot
